import Mathlib

/-!
Shallow embedding of the graphql-express user-account backend
(`src/utils/apollo-server.js`: context builder and the user resolvers;
`src/graphql/schema/user.js`: the schema surface) together with proofs
about the resolver layer and the request-context construction.

JavaScript strings are modelled as Lean `String`s (lists of characters);
`toLowerCase` is modelled character-wise by `Char.toLower`.  The document
store (Mongoose/MongoDB) is modelled as an in-memory list of documents,
with `findOne` returning the first matching document in store order.
Fallible resolver code is modelled with `Except`; each distinct `throw`
site of the source gets its own error constructor.
-/

/-- A stored post document (the external Post entity is referenced by the
user resolvers only for read-time population and ordering by `createdAt`). -/
structure PostDoc where
  id : String
  author : String
  createdAt : Nat
deriving DecidableEq, Repr

/-- A stored user document, with the fields the resolvers read and write.
`passwordResetToken` / `passwordResetTokenExpiry` are optional (absent on
most documents); `posts` holds the ids of the posts authored by the user. -/
structure UserDoc where
  id : String
  fullName : String
  email : String
  username : String
  password : String
  isOnline : Bool
  passwordResetToken : Option String
  passwordResetTokenExpiry : Option Int
  posts : List String
deriving DecidableEq, Repr

/-- Modelled from the spec: the decoded claims of an authentication token
("embeds the user's identifier (and enough identity claims to re-derive
it)"); the resolvers read `authUser.id` and `authUser.email`. -/
structure AuthClaims where
  id : String
  email : String
deriving DecidableEq, Repr

/-- Modelled from the spec: a minted token of the Token Codec, a signed,
opaque bearer credential carrying the identity claims, the signing secret
and the requested expiry (`mint(identity, secret, ttl) -> token`).
The implementation (`utils/generate-token.js`) is not part of the
supplied sources. -/
structure SignedToken where
  claims : AuthClaims
  secret : String
  expiresIn : String
deriving DecidableEq, Repr

/-- Modelled from the spec: `generateToken(user, secret, expiry)` of the
Token Codec, minting a token for the given user document. -/
def generateToken (user : UserDoc) (secret : String) (expiry : String) : SignedToken :=
  { claims := { id := user.id, email := user.email }, secret := secret, expiresIn := expiry }

/-- Modelled from the spec: the one-way password hash ("password (stored as
a one-way hash ...)"; the hashing library is an opaque primitive).  It is
modelled as a tagged injection so that hashed and plaintext forms are
distinguishable; no cryptographic property is claimed. -/
def bcryptHash (s : String) : String :=
  "$2a$10$" ++ s

/-- Modelled from the spec: the Credential Verifier, "compares a plaintext
password against a stored hash" (`bcrypt.compare`). -/
def bcryptCompare (password hash : String) : Bool :=
  hash = bcryptHash password

/-- Modelled from the spec: the User model's create/save operation invoked by
`new User({...}).save()`.  The model file is not part of the supplied
sources; per the spec the store persists a one-way hash of the password
("storing a one-way hash of the password, never the plaintext"), so saving
replaces the `password` field by its hash. -/
def userModelSave (u : UserDoc) : UserDoc :=
  { u with password := bcryptHash u.password }

/-- `AUTH_TOKEN_EXPIRY = '1y'`. -/
def AUTH_TOKEN_EXPIRY : String := "1y"

/-- `RESET_PASSWORD_TOKEN_EXPIRY = 3600000`. -/
def RESET_PASSWORD_TOKEN_EXPIRY : Int := 3600000

/-! ### The sign-up validation predicates (from `Mutation.signup`) -/

/-- JavaScript `\w` (word character): letters, digits, underscore. -/
def isWordChar (c : Char) : Bool :=
  ('a' ≤ c && c ≤ 'z') || ('A' ≤ c && c ≤ 'Z') || ('0' ≤ c && c ≤ '9') || c = '_'

/-- Whether the character list contains two consecutive periods
(the `(?!.*\.\.)` negative lookahead of the username regex). -/
def hasConsecutiveDots : List Char → Bool
  | [] => false
  | [_] => false
  | a :: b :: rest => (a = '.' && b = '.') || hasConsecutiveDots (b :: rest)

/-- The body `[^\W][\w.]{0,29}` of the username regex: a word character
followed by at most 29 word characters or periods. -/
def usernameBody : List Char → Bool
  | [] => false
  | c :: rest =>
      isWordChar c && rest.length ≤ 29 && rest.all (fun d => isWordChar d || d = '.')

/-- The username regex `/^(?!.*\.\.)(?!.*\.$)[^\W][\w.]{0,29}$/` of
`Mutation.signup`. -/
def usernameRegexTest (s : String) : Bool :=
  let cs := s.toList
  !hasConsecutiveDots cs && !(cs.getLast? = some '.') && usernameBody cs

/-- Characters allowed in an unquoted atom of the email local part:
the class `[^<>()[\]\\.,;:\s@"]` of the email regex. -/
def emailAtomChar (c : Char) : Bool :=
  !(c = '<' || c = '>' || c = '(' || c = ')' || c = '[' || c = ']' || c = '\\' ||
    c = '.' || c = ',' || c = ';' || c = ':' || c = '@' || c = '"' || c.isWhitespace)

/-- Splits a character list at periods (used to check dot-separated atom
sequences and domain labels of the email regex). -/
def splitAtDots : List Char → List (List Char)
  | [] => [[]]
  | c :: cs =>
      match splitAtDots cs with
      | [] => [[c]]
      | g :: gs => if c = '.' then [] :: g :: gs else (c :: g) :: gs

/-- The unquoted alternative `[^...]+(\.[^...]+)*` of the email local part:
a nonempty dot-separated sequence of nonempty atoms. -/
def emailDottedAtoms (cs : List Char) : Bool :=
  (splitAtDots cs).all (fun g => !g.isEmpty && g.all emailAtomChar)

/-- The quoted alternative `(".+")` of the email local part: a double quote,
one or more characters (`.` of the regex: anything but a line terminator),
and a closing double quote. -/
def emailQuoted (cs : List Char) : Bool :=
  match cs with
  | '"' :: rest =>
      match rest.dropLast.isEmpty, rest.getLast? with
      | false, some '"' =>
          rest.dropLast.all (fun c => !(c = '\n' || c = '\r' ||
            c.val = 0x2028 || c.val = 0x2029))
      | _, _ => false
  | _ => false

/-- The email local part `(([^...]+(\.[^...]+)*)|(".+"))`. -/
def emailLocal (cs : List Char) : Bool :=
  emailDottedAtoms cs || emailQuoted cs

/-- A decimal digit sequence of length 1 to 3 (`[0-9]{1,3}`). -/
def emailOctet (g : List Char) : Bool :=
  1 ≤ g.length && g.length ≤ 3 && g.all (fun c => '0' ≤ c && c ≤ '9')

/-- The bracketed IPv4-literal alternative
`\[[0-9]{1,3}\.[0-9]{1,3}\.[0-9]{1,3}\.[0-9]{1,3}\]` of the email domain. -/
def emailIpDomain (cs : List Char) : Bool :=
  match cs with
  | '[' :: rest =>
      match rest.getLast? with
      | some ']' =>
          match splitAtDots rest.dropLast with
          | [a, b, c, d] => emailOctet a && emailOctet b && emailOctet c && emailOctet d
          | _ => false
      | _ => false
  | _ => false

/-- A domain label `[a-zA-Z\-0-9]+`. -/
def emailLabel (g : List Char) : Bool :=
  !g.isEmpty && g.all (fun c => ('a' ≤ c && c ≤ 'z') || ('A' ≤ c && c ≤ 'Z') ||
    ('0' ≤ c && c ≤ '9') || c = '-')

/-- A top-level domain `[a-zA-Z]{2,}`. -/
def emailTld (g : List Char) : Bool :=
  2 ≤ g.length && g.all (fun c => ('a' ≤ c && c ≤ 'z') || ('A' ≤ c && c ≤ 'Z'))

/-- The named-domain alternative `([a-zA-Z\-0-9]+\.)+[a-zA-Z]{2,}`:
one or more labels each followed by a period, then a TLD. -/
def emailNamedDomain (cs : List Char) : Bool :=
  match (splitAtDots cs).reverse with
  | tld :: labels => labels.length ≥ 1 && emailTld tld && labels.all emailLabel
  | [] => false

/-- The email domain part. -/
def emailDomain (cs : List Char) : Bool :=
  emailIpDomain cs || emailNamedDomain cs

/-- All ways of splitting a list around one occurrence of `sep`:
pairs `(before, after)` with `before ++ sep :: after` the original list. -/
def splitsAround (sep : Char) : List Char → List (List Char × List Char)
  | [] => []
  | c :: cs =>
      let rest := (splitsAround sep cs).map (fun p => (c :: p.1, p.2))
      if c = sep then ([], cs) :: rest else rest

/-- The anchored email regex of `Mutation.signup`
(`/^(local)@(domain)$/`): some split of the string at an `@` has a
valid local part on the left and a valid domain on the right. -/
def emailRegexTest (cs : List Char) : Bool :=
  (splitsAround '@' cs).any (fun p => emailLocal p.1 && emailDomain p.2)

/-- The reserved front-end routes of `Mutation.signup`. -/
def frontEndPages : List String :=
  ["forgot-password", "reset-password", "explore", "people", "notifications", "post"]

/-! ### Mutation.signup -/

/-- The sign-up input object (`SignUpInput`). -/
structure SignUpInput where
  fullName : String
  email : String
  username : String
  password : String
deriving DecidableEq, Repr

/-- One constructor per `throw` site of `Mutation.signup`, in source order. -/
inductive SignupErr where
  | alreadyExists (field : String)
  | allFieldsRequired
  | fullNameMax40
  | fullNameMin4
  | invalidEmailAddr
  | usernameCharset
  | usernameMax20
  | usernameMin3
  | usernameReserved
  | passwordMin6
deriving DecidableEq, Repr

/-- The typed-error taxonomy the specification assigns to the sign-up
rules (§4.3.6 / §7 of the spec). -/
inductive SpecSignupError where
  | AlreadyExists (field : String)
  | MissingField
  | InvalidFullName
  | InvalidEmail
  | InvalidUsername
  | UsernameUnavailable
  | WeakPassword
deriving DecidableEq, Repr

/-- The specification's classification of each `throw` site: the username
pattern failure is `InvalidUsername`; the username length bounds and the
reserved-word list are `UsernameUnavailable` (spec §4.3.6 rule 5). -/
def SignupErr.spec : SignupErr → SpecSignupError
  | .alreadyExists f => .AlreadyExists f
  | .allFieldsRequired => .MissingField
  | .fullNameMax40 => .InvalidFullName
  | .fullNameMin4 => .InvalidFullName
  | .invalidEmailAddr => .InvalidEmail
  | .usernameCharset => .InvalidUsername
  | .usernameMax20 => .UsernameUnavailable
  | .usernameMin3 => .UsernameUnavailable
  | .usernameReserved => .UsernameUnavailable
  | .passwordMin6 => .WeakPassword

/-- `User.findOne().or([{ email }, { username }])`: the first stored user
whose email or username matches. -/
def findByEmailOrUsername (store : List UserDoc) (email username : String) : Option UserDoc :=
  store.find? (fun u => u.email = email || u.username = username)

/-- The outcome of a `signup` call: the resolver result, the argument object
the resolver passes to the store's create operation (`new User({...})`),
when reached, and the store contents afterwards. -/
structure SignupOutcome where
  result : Except SignupErr SignedToken
  createArg : Option UserDoc
  store : List UserDoc
deriving Repr

/-- `Mutation.signup` (`src/utils/apollo-server.js`): the validation cascade in
source order, then `new User({ fullName, email, username, password }).save()`
and `generateToken(newUser, process.env.SECRET, AUTH_TOKEN_EXPIRY)`.
`newId` stands for the identifier the store assigns to the new document. -/
def Mutation.signup (secret : String) (store : List UserDoc) (newId : String)
    (inp : SignUpInput) : SignupOutcome :=
  match findByEmailOrUsername store inp.email inp.username with
  | some u =>
      ⟨.error (.alreadyExists (if u.email = inp.email then "email" else "username")), none, store⟩
  | none =>
  if inp.fullName = "" || inp.email = "" || inp.username = "" || inp.password = "" then
    ⟨.error .allFieldsRequired, none, store⟩
  else if inp.fullName.length > 40 then ⟨.error .fullNameMax40, none, store⟩
  else if inp.fullName.length < 4 then ⟨.error .fullNameMin4, none, store⟩
  else if !emailRegexTest (inp.email.toList.map Char.toLower) then
    ⟨.error .invalidEmailAddr, none, store⟩
  else if !usernameRegexTest inp.username then ⟨.error .usernameCharset, none, store⟩
  else if inp.username.length > 20 then ⟨.error .usernameMax20, none, store⟩
  else if inp.username.length < 3 then ⟨.error .usernameMin3, none, store⟩
  else if frontEndPages.contains inp.username then ⟨.error .usernameReserved, none, store⟩
  else if inp.password.length < 6 then ⟨.error .passwordMin6, none, store⟩
  else
    let newUser : UserDoc :=
      { id := newId, fullName := inp.fullName, email := inp.email,
        username := inp.username, password := inp.password,
        isOnline := false, passwordResetToken := none,
        passwordResetTokenExpiry := none, posts := [] }
    let saved := userModelSave newUser
    ⟨.ok (generateToken saved secret AUTH_TOKEN_EXPIRY), some newUser, store ++ [saved]⟩

deriving instance DecidableEq for Except

example :
    (Mutation.signup "sec" [] "u1"
      ⟨"John Doe", "john@example.com", "john.doe", "secret1"⟩).result =
    .ok (generateToken (userModelSave
      { id := "u1", fullName := "John Doe", email := "john@example.com",
        username := "john.doe", password := "secret1", isOnline := false,
        passwordResetToken := none, passwordResetTokenExpiry := none,
        posts := [] }) "sec" AUTH_TOKEN_EXPIRY) := by decide

example :
    (Mutation.signup "sec" [] "u1"
      ⟨"John Doe", "johnexample.com", "john.doe", "secret1"⟩).result =
    .error .invalidEmailAddr := by decide

example :
    (Mutation.signup "sec" [] "u1"
      ⟨"Al", "john@example.com", "john.doe", "secret1"⟩).result =
    .error .fullNameMin4 := by decide

example :
    (Mutation.signup "sec" [] "u1"
      ⟨"John Doe", "john@example.com", "post", "secret1"⟩).result =
    .error .usernameReserved := by decide

/-! ### Mutation.signin -/

/-- The sign-in input object (`SignInInput`). -/
structure SignInInput where
  emailOrUsername : String
  password : String
deriving DecidableEq, Repr

/-- The two `throw` sites of `Mutation.signin`. -/
inductive SigninErr where
  | userNotFound
  | invalidPassword
deriving DecidableEq, Repr

/-- `Mutation.signin` (`src/utils/apollo-server.js`): find the first user whose
email or username equals `emailOrUsername`; compare the password against the
stored hash; on success mint a token with the 1-year expiry. -/
def Mutation.signin (secret : String) (store : List UserDoc)
    (inp : SignInInput) : Except SigninErr SignedToken :=
  match findByEmailOrUsername store inp.emailOrUsername inp.emailOrUsername with
  | none => .error .userNotFound
  | some user =>
      if !bcryptCompare inp.password user.password then .error .invalidPassword
      else .ok (generateToken user secret AUTH_TOKEN_EXPIRY)

/-! ### Post population (Mongoose `populate` with `sort: createdAt desc`) -/

/-- The `createdAt`-descending order used by the populate options
(`options: { sort: { createdAt: 'desc' } }`). -/
def createdDesc (a b : PostDoc) : Prop :=
  b.createdAt ≤ a.createdAt

instance : DecidableRel createdDesc := fun a b => Nat.decLe b.createdAt a.createdAt

instance : IsTotal PostDoc createdDesc :=
  ⟨fun a b => (Nat.le_total b.createdAt a.createdAt)⟩

instance : IsTrans PostDoc createdDesc :=
  ⟨fun _ _ _ hab hbc => Nat.le_trans hbc hab⟩

/-- Populates a user's `posts` references from the post store, ordered by
creation time descending (the store's sort is modelled by a stable sort). -/
def populatePostsDesc (posts : List PostDoc) (u : UserDoc) : List PostDoc :=
  List.insertionSort createdDesc (posts.filter (fun p => u.posts.contains p.id))

/-! ### Query.getUser -/

/-- JavaScript truthiness of an optional string argument: absent/null and
the empty string are falsy. -/
def truthy : Option String → Bool
  | none => false
  | some s => s ≠ ""

/-- The three `throw` sites of `Query.getUser`. -/
inductive GetUserErr where
  | missingParams
  | bothParams
  | notFound
deriving DecidableEq, Repr

/-- The specification's typed-error taxonomy for `Query.getUser`: both
argument-shape failures are `InvalidArgument`. -/
inductive SpecGetUserError where
  | InvalidArgument
  | NotFound
deriving DecidableEq, Repr

/-- The specification's classification of the `Query.getUser` throw sites. -/
def GetUserErr.spec : GetUserErr → SpecGetUserError
  | .missingParams => .InvalidArgument
  | .bothParams => .InvalidArgument
  | .notFound => .NotFound

/-- `Query.getUser` (`src/utils/apollo-server.js`): requires (by JavaScript
truthiness) exactly one of `username`/`id`; `const query = username ?
{ username } : { _id: id }`; `findOne` with posts populated (descending);
`NotFound` when no document matches. -/
def Query.getUser (users : List UserDoc) (posts : List PostDoc)
    (username id : Option String) : Except GetUserErr (UserDoc × List PostDoc) :=
  if !truthy username && !truthy id then .error .missingParams
  else if truthy username && truthy id then .error .bothParams
  else
    let found :=
      if truthy username then users.find? (fun u => some u.username = username)
      else users.find? (fun u => some u.id = id)
    match found with
    | none => .error .notFound
    | some u => .ok (u, populatePostsDesc posts u)

/-! ### Query.searchUsers -/

/-- The ECMAScript regular-expression metacharacters (the pattern syntax
characters `^ $ \ . * + ? ( ) [ ] \x7b \x7d |`). -/
def jsRegexMeta (c : Char) : Bool :=
  c = '^' || c = '$' || c = '\\' || c = '.' || c = '*' || c = '+' || c = '?' ||
  c = '(' || c = ')' || c = '[' || c = ']' || c.val = 0x7b || c.val = 0x7d ||
  c = '|'

/-- A pattern inside the regex fragment modelled by `regexTestCI`: it uses
no metacharacter other than the `.` wildcard. -/
def modelledPattern (pat : String) : Bool :=
  pat.toList.all (fun c => !jsRegexMeta c || c = '.')

/-- One pattern position against one subject character, under the
case-insensitive flag: `.` matches any character except a line terminator
(ECMAScript `.` excludes `\n`, `\r`, U+2028 and U+2029); any other character
of the fragment is a literal and matches itself case-insensitively. -/
def regexCharMatch (p c : Char) : Bool :=
  if p = '.' then !(c = '\n' || c = '\r' || c.val = 0x2028 || c.val = 0x2029)
  else p.toLower = c.toLower

/-- Matching the pattern at one position of the subject. -/
def regexMatchAt : List Char → List Char → Bool
  | [], _ => true
  | _ :: _, [] => false
  | p :: ps, c :: cs => regexCharMatch p c && regexMatchAt ps cs

/-- Unanchored search (`RegExp.prototype.test`): the pattern matches at some
position of the subject. -/
def regexSearch (pat : List Char) : List Char → Bool
  | [] => regexMatchAt pat []
  | c :: cs => regexMatchAt pat (c :: cs) || regexSearch pat cs

/-- Modelled from ECMAScript semantics for patterns satisfying
`modelledPattern` (literal characters plus the `.` wildcard):
`new RegExp(pat, 'i').test(s)`.  Outside that fragment the JavaScript
regular-expression engine is an opaque runtime primitive; `Query.searchUsers`
therefore takes the engine as an explicit parameter, and `regexTestCI` is
used to instantiate it only at patterns inside the fragment. -/
def regexTestCI (pat s : String) : Bool :=
  regexSearch pat.toList s.toList

/-- Case-insensitive substring containment, the reading the specification
gives to the search condition ("whose username or full name
case-insensitively contains `searchQuery`"). -/
def ciContains (s q : String) : Bool :=
  ((s.toList.map Char.toLower).tails).any (fun t => (q.toList.map Char.toLower).isPrefixOf t)

/-- The failure of `Query.searchUsers` when the resolver dereferences
`authUser.id` on an absent `authUser` (a thrown `TypeError`). -/
inductive SearchErr where
  | authUserUndefined
deriving DecidableEq, Repr

/-- `Query.searchUsers` (`src/utils/apollo-server.js`): empty query returns
`[]` before anything else; otherwise the query object reads `authUser.id`
(throwing when `authUser` is absent) and the store returns at most 50 users
whose username or full name the regex engine matches against
`new RegExp(searchQuery, 'i')`, with the caller's id excluded by `$ne`.
`rtest pat s` stands for the JavaScript runtime's
`new RegExp(pat, 'i').test(s)`, an opaque external primitive passed in as a
parameter. -/
def Query.searchUsers (rtest : String → String → Bool) (store : List UserDoc)
    (authUser : Option AuthClaims) (searchQuery : String) :
    Except SearchErr (List UserDoc) :=
  if searchQuery = "" then .ok []
  else
    match authUser with
    | none => .error .authUserUndefined
    | some a =>
        .ok (((store.filter (fun u =>
          (rtest searchQuery u.username || rtest searchQuery u.fullName) &&
            u.id ≠ a.id)).take 50))

/-! ### Query.verifyResetPasswordToken -/

/-- The `throw` site of `Query.verifyResetPasswordToken`. -/
inductive ResetTokenErr where
  | invalidOrExpired
deriving DecidableEq, Repr

/-- Whether a stored user document matches the reset-token query
`{ email, passwordResetToken: token, passwordResetTokenExpiry:
{ $gte: Date.now() - RESET_PASSWORD_TOKEN_EXPIRY } }`; a document whose
optional fields are absent does not match the comparison. -/
def resetTokenMatches (now : Int) (email token : String) (u : UserDoc) : Bool :=
  u.email = email && u.passwordResetToken = some token &&
    (match u.passwordResetTokenExpiry with
     | some e => now - RESET_PASSWORD_TOKEN_EXPIRY ≤ e
     | none => false)

/-- `Query.verifyResetPasswordToken` (`src/utils/apollo-server.js`): success
message exactly when some stored user matches the query. -/
def Query.verifyResetPasswordToken (store : List UserDoc) (now : Int)
    (email token : String) : Except ResetTokenErr String :=
  match store.find? (resetTokenMatches now email token) with
  | none => .error .invalidOrExpired
  | some _ => .ok "Success"

/-! ### Query.getAuthUser -/

/-- Updates the first document satisfying `p` (MongoDB `findOneAndUpdate`
updates a single document). -/
def updateFirst (p : UserDoc → Bool) (f : UserDoc → UserDoc) : List UserDoc → List UserDoc
  | [] => []
  | u :: us => if p u then f u :: us else u :: updateFirst p f us

/-- The outcome of a `getAuthUser` call: the document returned (the
pre-update document, as `findOneAndUpdate` returns by default), its
populated posts, and the user store afterwards. -/
structure AuthUserOutcome where
  user : Option UserDoc
  posts : List PostDoc
  users : List UserDoc
deriving Repr

/-- `Query.getAuthUser` (`src/utils/apollo-server.js`): `null` immediately
when `authUser` is absent; otherwise
`User.findOneAndUpdate({ email: authUser.email }, { isOnline: true })` with
posts populated in `createdAt`-descending order. -/
def Query.getAuthUser (users : List UserDoc) (posts : List PostDoc)
    (authUser : Option AuthClaims) : AuthUserOutcome :=
  match authUser with
  | none => ⟨none, [], users⟩
  | some a =>
      match users.find? (fun u => u.email = a.email) with
      | none => ⟨none, [], users⟩
      | some u =>
          ⟨some u, populatePostsDesc posts u,
            updateFirst (fun d => d.email = a.email) (fun d => { d with isOnline := true }) users⟩

/-! ### The context builder (`createApolloServer`) -/

/-- A value stored in the request context: either the `authUser` entry or a
store handle from `models`.  Store handles are modelled opaquely by `String`
names. -/
inductive CtxVal where
  | auth (a : Option AuthClaims)
  | handle (h : String)
deriving DecidableEq, Repr

/-- A JavaScript object, modelled as an association list of string keys
(unique in a real object) to values; lookup takes the first binding. -/
def jsSetKey (o : List (String × CtxVal)) (kv : String × CtxVal) : List (String × CtxVal) :=
  if o.any (fun p => p.1 = kv.1) then
    o.map (fun p => if p.1 = kv.1 then kv else p)
  else o ++ [kv]

/-- `Object.assign(target, source)`: each own key of `source`, in order, is
set on `target` (overwriting an existing key in place, appending a new one). -/
def objAssign (target source : List (String × CtxVal)) : List (String × CtxVal) :=
  source.foldl jsSetKey target

/-- `Object.assign({ authUser }, models)`: the context object returned by
the context builder. -/
def mkContext (authUser : Option AuthClaims) (models : List (String × String)) :
    List (String × CtxVal) :=
  objAssign [("authUser", .auth authUser)] (models.map (fun p => (p.1, .handle p.2)))

/-- The observable outcome of awaiting the context builder: a context, a
request-level error, or a promise that never settles. -/
inductive CtxOutcome where
  | ok (c : List (String × CtxVal))
  | errored (msg : String)
  | hangs
deriving DecidableEq, Repr

/-- Whether the outcome is a request-level failure. -/
def CtxOutcome.failsRequest : CtxOutcome → Bool
  | .errored _ => true
  | _ => false

/-- Whether the outcome yields a context. -/
def CtxOutcome.yieldsContext : CtxOutcome → Bool
  | .ok _ => true
  | _ => false

/-- `checkAuthorization(token)` (`src/utils/apollo-server.js`): `jwt.verify`
is called inside `new Promise(async (resolve, reject) => ...)`.  When
verification succeeds the claims are truthy and the promise resolves with
them.  When `jwt.verify` throws (invalid signature, tampering, expiry), the
async executor rejects a promise nobody observes and neither `resolve` nor
`reject` is ever called: the returned promise never settles.  The explicit
`reject` branch would require `jwt.verify` to return a falsy value without
throwing, which the verifier contract (spec §4.1: decoded claims or failure)
rules out. -/
def checkAuthorization (verify : String → Except String AuthClaims)
    (token : String) : Except Unit AuthClaims :=
  match verify token with
  | .ok claims => .ok claims
  | .error _ => .error ()

/-- The `context` callback of `createApolloServer`
(`src/utils/apollo-server.js`): a persistent-connection context is returned
unchanged; otherwise the literal header value `'null'` skips verification
and any other value is passed to `checkAuthorization`, whose unsettled
promise on verification failure leaves the request hanging. -/
def buildContext (connection : Option (List (String × CtxVal)))
    (authorization : String) (verify : String → Except String AuthClaims)
    (models : List (String × String)) : CtxOutcome :=
  match connection with
  | some ctx => .ok ctx
  | none =>
      if authorization ≠ "null" then
        match checkAuthorization verify authorization with
        | .ok user => .ok (mkContext (some user) models)
        | .error _ => .hangs
      else
        .ok (mkContext none models)

/-- A concrete user document with the given scalar fields and defaulted
optional fields, used for concrete test inputs. -/
def mkUser (id fullName email username password : String) : UserDoc :=
  { id := id, fullName := fullName, email := email, username := username,
    password := password, isOnline := false, passwordResetToken := none,
    passwordResetTokenExpiry := none, posts := [] }

example :
    Mutation.signin "sec" [mkUser "1" "John Doe" "j@x.co" "john" (bcryptHash "secret1")]
      ⟨"john", "secret1"⟩ =
    .ok ⟨⟨"1", "j@x.co"⟩, "sec", "1y"⟩ := by decide

example :
    Query.searchUsers regexTestCI [mkUser "2" "abcd" "e" "ab" "p"]
      (some ⟨"1", "me@x.co"⟩) "." =
    .ok [mkUser "2" "abcd" "e" "ab" "p"] := by decide

example : ciContains "abcd" "." = false := by decide
example : ciContains "aBcD" "bC" = true := by decide

/-! ### Helper lemmas -/

theorem resetTokenMatches_iff (now : Int) (email token : String) (u : UserDoc) :
    resetTokenMatches now email token u = true ↔
      u.email = email ∧ u.passwordResetToken = some token ∧
        ∃ e, u.passwordResetTokenExpiry = some e ∧ now - 3600000 ≤ e := by
  unfold resetTokenMatches
  cases h : u.passwordResetTokenExpiry with
  | none => simp [h, RESET_PASSWORD_TOKEN_EXPIRY]
  | some e => simp [h, RESET_PASSWORD_TOKEN_EXPIRY, and_assoc]

theorem findByEmailOrUsername_none_iff (store : List UserDoc) (email username : String) :
    findByEmailOrUsername store email username = none ↔
      ∀ u ∈ store, u.email ≠ email ∧ u.username ≠ username := by
  unfold findByEmailOrUsername
  rw [List.find?_eq_none]
  constructor
  · intro h u hu
    have := h u hu
    simp at this
    exact this
  · intro h u hu
    have := h u hu
    simp [this.1, this.2]

theorem findByEmailOrUsername_mem (store : List UserDoc) (email username : String)
    (u : UserDoc) (h : findByEmailOrUsername store email username = some u) :
    u ∈ store ∧ (u.email = email ∨ u.username = username) := by
  unfold findByEmailOrUsername at h
  refine ⟨List.mem_of_find?_eq_some h, ?_⟩
  have := List.find?_some h
  simpa using this

/-! ### C9 -/

/-- Claim C9: `Query.verifyResetPasswordToken` returns the success
acknowledgment exactly when some stored user matches the email, has
`passwordResetToken` equal to the token and has an expiry no older than
1 hour (3600000 ms) before the current time; in every other case it fails
with the invalid-or-expired error. -/
theorem verifyResetPasswordToken_ok_iff (store : List UserDoc) (now : Int)
    (email token : String) :
    (Query.verifyResetPasswordToken store now email token = .ok "Success" ↔
      ∃ u ∈ store, u.email = email ∧ u.passwordResetToken = some token ∧
        ∃ e, u.passwordResetTokenExpiry = some e ∧ now - 3600000 ≤ e) ∧
    (Query.verifyResetPasswordToken store now email token = .error .invalidOrExpired ↔
      ¬ ∃ u ∈ store, u.email = email ∧ u.passwordResetToken = some token ∧
        ∃ e, u.passwordResetTokenExpiry = some e ∧ now - 3600000 ≤ e) := by
  unfold Query.verifyResetPasswordToken
  cases h : store.find? (resetTokenMatches now email token) with
  | none =>
      rw [List.find?_eq_none] at h
      constructor
      · simp only [reduceCtorEq, false_iff]
        rintro ⟨u, hu, h1, h2, e, h3, h4⟩
        exact h u hu ((resetTokenMatches_iff now email token u).mpr ⟨h1, h2, e, h3, h4⟩)
      · simp only [true_iff]
        rintro ⟨u, hu, h1, h2, e, h3, h4⟩
        exact h u hu ((resetTokenMatches_iff now email token u).mpr ⟨h1, h2, e, h3, h4⟩)
  | some u =>
      have hmem := List.mem_of_find?_eq_some h
      have hp := (resetTokenMatches_iff now email token u).mp (List.find?_some h)
      constructor
      · simp only [true_iff]
        exact ⟨u, hmem, hp⟩
      · simp only [reduceCtorEq, false_iff, not_not]
        exact ⟨u, hmem, hp⟩

/-! ### C10 -/

/-- Claim C10: for every non-empty `searchQuery`, `Query.searchUsers` with an
absent `authUser` fails (the resolver dereferences `authUser.id` while
building the store query, before the regex filter can run) instead of
returning any result — whatever the regex engine — so an authenticated
caller is a precondition for every successful non-empty search. -/
theorem searchUsers_unauthenticated_fails (rtest : String → String → Bool)
    (store : List UserDoc) (q : String) (h : q ≠ "") :
    Query.searchUsers rtest store none q = .error .authUserUndefined := by
  unfold Query.searchUsers
  simp [h]

/-- Witness for `searchUsers_unauthenticated_fails` at a concrete store and
query. -/
theorem searchUsers_unauthenticated_fails_witness :
    Query.searchUsers regexTestCI [mkUser "2" "abcd" "e" "ab" "p"] none "ab" =
      .error .authUserUndefined :=
  searchUsers_unauthenticated_fails regexTestCI [mkUser "2" "abcd" "e" "ab" "p"]
    "ab" (by decide)

/-! ### C5 -/

theorem signin_eq_of_find_none (secret : String) (store : List UserDoc) (inp : SignInInput)
    (h : findByEmailOrUsername store inp.emailOrUsername inp.emailOrUsername = none) :
    Mutation.signin secret store inp = .error .userNotFound := by
  unfold Mutation.signin
  rw [h]

theorem signin_eq_of_find_some (secret : String) (store : List UserDoc) (inp : SignInInput)
    (u : UserDoc)
    (h : findByEmailOrUsername store inp.emailOrUsername inp.emailOrUsername = some u) :
    Mutation.signin secret store inp =
      if !bcryptCompare inp.password u.password then .error .invalidPassword
      else .ok (generateToken u secret AUTH_TOKEN_EXPIRY) := by
  unfold Mutation.signin
  rw [h]

/-- Claim C5: `Mutation.signin` fails `NotFound` exactly when no stored user
has the given email or username; when the first such user exists, it fails
`InvalidCredentials` exactly when the password does not verify against that
user's stored hash, and on a verifying password returns a token minted for
that user with the 1-year expiry. -/
theorem signin_spec (secret : String) (store : List UserDoc) (inp : SignInInput) :
    (Mutation.signin secret store inp = .error .userNotFound ↔
      ∀ u ∈ store, u.email ≠ inp.emailOrUsername ∧ u.username ≠ inp.emailOrUsername) ∧
    (∀ u, findByEmailOrUsername store inp.emailOrUsername inp.emailOrUsername = some u →
      (Mutation.signin secret store inp = .error .invalidPassword ↔
        bcryptCompare inp.password u.password = false) ∧
      (bcryptCompare inp.password u.password = true →
        Mutation.signin secret store inp = .ok (generateToken u secret "1y"))) := by
  cases h : findByEmailOrUsername store inp.emailOrUsername inp.emailOrUsername with
  | none =>
      have heq := signin_eq_of_find_none secret store inp h
      rw [findByEmailOrUsername_none_iff] at h
      refine ⟨iff_of_true heq h, ?_⟩
      intro u hu
      simp at hu
  | some u =>
      have heq := signin_eq_of_find_some secret store inp u h
      have hmem := findByEmailOrUsername_mem store _ _ u h
      constructor
      · apply iff_of_false
        · cases hcmp : bcryptCompare inp.password u.password <;> simp [heq, hcmp]
        · intro hall
          rcases hall u hmem.1 with ⟨h1, h2⟩
          rcases hmem.2 with h3 | h3
          · exact h1 h3
          · exact h2 h3
      · intro v hv
        cases hv
        constructor
        · cases hcmp : bcryptCompare inp.password u.password <;> simp [heq, hcmp]
        · intro hcmp
          simp [heq, hcmp, AUTH_TOKEN_EXPIRY]

/-- Witness for `signin_spec`: at a concrete store, a wrong password yields
`InvalidCredentials` and the right password yields a 1-year token. -/
theorem signin_spec_witness :
    Mutation.signin "sec" [mkUser "1" "John Doe" "j@x.co" "john" (bcryptHash "pw1234")]
      ⟨"john", "wrong"⟩ = .error .invalidPassword ∧
    Mutation.signin "sec" [mkUser "1" "John Doe" "j@x.co" "john" (bcryptHash "pw1234")]
      ⟨"john", "pw1234"⟩ =
      .ok (generateToken (mkUser "1" "John Doe" "j@x.co" "john" (bcryptHash "pw1234")) "sec" "1y") :=
  ⟨(((signin_spec "sec" [mkUser "1" "John Doe" "j@x.co" "john" (bcryptHash "pw1234")]
      ⟨"john", "wrong"⟩).2 (mkUser "1" "John Doe" "j@x.co" "john" (bcryptHash "pw1234"))
      (by decide)).1).mpr (by decide),
   (((signin_spec "sec" [mkUser "1" "John Doe" "j@x.co" "john" (bcryptHash "pw1234")]
      ⟨"john", "pw1234"⟩).2 (mkUser "1" "John Doe" "j@x.co" "john" (bcryptHash "pw1234"))
      (by decide)).2) (by decide)⟩

/-! ### C6 -/

/-- The specification-level error type of a `Query.getUser` result, when the
result is a failure. -/
def getUserSpecError (r : Except GetUserErr (UserDoc × List PostDoc)) :
    Option SpecGetUserError :=
  match r with
  | .error e => some e.spec
  | .ok _ => none

/-- Claim C6 counterexample: with `username` supplied as the empty string and
`id` supplied as `"5"`, both arguments are supplied, yet `Query.getUser` does
not fail with `InvalidArgument`: JavaScript truthiness treats the empty
string as absent, so the resolver looks the user up by id and returns it. -/
theorem getUser_both_supplied_counterexample :
    Query.getUser [mkUser "5" "John Doe" "j@x.co" "john" "pw"] []
      (some "") (some "5") =
      .ok (mkUser "5" "John Doe" "j@x.co" "john" "pw", []) := by decide

/-- Claim C6 (amended): argument presence in `Query.getUser` is decided by
JavaScript truthiness, under which absent/null and the empty string both
count as not supplied.  It fails `InvalidArgument` when both arguments are
truthy and when neither is truthy; when exactly one is truthy it looks the
user up by that field, failing `NotFound` when no stored user matches and
returning the matching user otherwise. -/
theorem getUser_cases (users : List UserDoc) (posts : List PostDoc)
    (username id : Option String) :
    (truthy username = false → truthy id = false →
      getUserSpecError (Query.getUser users posts username id) =
        some .InvalidArgument) ∧
    (truthy username = true → truthy id = true →
      getUserSpecError (Query.getUser users posts username id) =
        some .InvalidArgument) ∧
    (truthy username = true → truthy id = false →
      (users.find? (fun u => some u.username = username) = none →
        Query.getUser users posts username id = .error .notFound) ∧
      (∀ u, users.find? (fun u => some u.username = username) = some u →
        Query.getUser users posts username id = .ok (u, populatePostsDesc posts u))) ∧
    (truthy username = false → truthy id = true →
      (users.find? (fun u => some u.id = id) = none →
        Query.getUser users posts username id = .error .notFound) ∧
      (∀ u, users.find? (fun u => some u.id = id) = some u →
        Query.getUser users posts username id = .ok (u, populatePostsDesc posts u))) := by
  unfold Query.getUser
  refine ⟨?_, ?_, ?_, ?_⟩
  · intro hu hid
    simp [hu, hid, getUserSpecError, GetUserErr.spec]
  · intro hu hid
    simp [hu, hid, getUserSpecError, GetUserErr.spec]
  · intro hu hid
    constructor
    · intro hfind
      simp [hu, hid, hfind]
    · intro u hfind
      simp [hu, hid, hfind]
  · intro hu hid
    constructor
    · intro hfind
      simp [hu, hid, hfind]
    · intro u hfind
      simp [hu, hid, hfind]

/-- Witness for `getUser_cases`: with neither argument supplied the call
fails `InvalidArgument`, and with only a username it returns the user. -/
theorem getUser_cases_witness :
    getUserSpecError (Query.getUser [] [] none none) = some .InvalidArgument ∧
    Query.getUser [mkUser "5" "n m" "e@x.co" "john" "pw"] [] (some "john") none =
      .ok (mkUser "5" "n m" "e@x.co" "john" "pw", []) :=
  ⟨(getUser_cases [] [] none none).1 rfl rfl,
   ((getUser_cases [mkUser "5" "n m" "e@x.co" "john" "pw"] [] (some "john") none).2.2.1
      rfl rfl).2 (mkUser "5" "n m" "e@x.co" "john" "pw") (by decide)⟩

/-! ### C3 -/

/-- A verifier that fails on every token (an invalid or tampered credential),
used for concrete instances. -/
def demoVerifyFail : String → Except String AuthClaims :=
  fun _ => .error "invalid signature"

/-- Claim C3 counterexample: with no persistent connection, a credential
other than the `'null'` sentinel, and failing token verification, the context
builder neither fails the request with an authentication error nor yields a
context — `jwt.verify` throws inside the `new Promise(async ...)` executor,
so the context promise never settles and the request hangs.  The claim says
the request fails with an authentication error. -/
theorem buildContext_verify_failure_counterexample :
    buildContext none "sometoken" demoVerifyFail [("User", "UserModel")] =
      .hangs ∧
    (buildContext none "sometoken" demoVerifyFail
      [("User", "UserModel")]).failsRequest = false ∧
    (buildContext none "sometoken" demoVerifyFail
      [("User", "UserModel")]).yieldsContext = false := by
  refine ⟨rfl, rfl, rfl⟩

/-- Claim C3 (amended): a persistent-connection context is returned
unchanged, with no re-authentication (the outcome does not depend on the
verifier); the literal `'null'` credential yields a context with no
`authUser` and no verification call is made (the outcome does not depend on
the verifier); any other credential invokes verification — on success the
claims become `authUser`, and on verification failure the context promise
never settles (the request hangs) rather than failing with an
authentication error. -/
theorem buildContext_cases (authorization : String)
    (verify : String → Except String AuthClaims) (models : List (String × String)) :
    (∀ ctx, buildContext (some ctx) authorization verify models = .ok ctx) ∧
    (authorization = "null" →
      buildContext none authorization verify models = .ok (mkContext none models)) ∧
    (authorization = "null" →
      ∀ v2 : String → Except String AuthClaims,
        buildContext none authorization v2 models =
          buildContext none authorization verify models) ∧
    (authorization ≠ "null" →
      (∀ claims, verify authorization = .ok claims →
        buildContext none authorization verify models =
          .ok (mkContext (some claims) models)) ∧
      (∀ msg, verify authorization = .error msg →
        buildContext none authorization verify models = .hangs)) := by
  refine ⟨fun ctx => rfl, ?_, ?_, ?_⟩
  · intro h
    subst h
    rfl
  · intro h v2
    subst h
    rfl
  · intro h
    constructor
    · intro claims hc
      unfold buildContext checkAuthorization
      simp [h, hc]
    · intro msg hm
      unfold buildContext checkAuthorization
      simp [h, hm]

/-- Witness for `buildContext_cases` at concrete inputs: connection reuse,
the `'null'` sentinel, and a successful verification. -/
theorem buildContext_cases_witness :
    buildContext (some [("authUser", .auth none)]) "tok" demoVerifyFail [] =
      .ok [("authUser", .auth none)] ∧
    buildContext none "null" demoVerifyFail [("User", "UserModel")] =
      .ok (mkContext none [("User", "UserModel")]) ∧
    buildContext none "tok" (fun _ => .ok ⟨"1", "e@x.co"⟩) [("User", "UserModel")] =
      .ok (mkContext (some ⟨"1", "e@x.co"⟩) [("User", "UserModel")]) :=
  ⟨(buildContext_cases "tok" demoVerifyFail []).1 [("authUser", .auth none)],
   (buildContext_cases "null" demoVerifyFail [("User", "UserModel")]).2.1 rfl,
   ((buildContext_cases "tok" (fun _ => .ok ⟨"1", "e@x.co"⟩)
      [("User", "UserModel")]).2.2.2 (by decide)).1 ⟨"1", "e@x.co"⟩ rfl⟩

/-! ### C4 -/


theorem lookup_map_replace_self (o : List (String × CtxVal)) (k : String) (v : CtxVal)
    (h : o.any (fun p => p.1 = k) = true) :
    (o.map (fun p => if p.1 = k then (k, v) else p)).lookup k = some v := by
  induction o with
  | nil => simp at h
  | cons p ps ih =>
      simp only [List.map_cons]
      by_cases hp : p.1 = k
      · rw [if_pos hp]
        simp [List.lookup]
      · rw [if_neg hp]
        simp only [List.any_cons, decide_eq_false hp, Bool.false_or] at h
        have hne : (k == p.1) = false :=
          beq_eq_false_iff_ne.mpr (fun hc => hp hc.symm)
        simp only [List.lookup, hne]
        exact ih h

theorem lookup_map_replace_other (o : List (String × CtxVal)) (k k2 : String) (v : CtxVal)
    (h : k2 ≠ k) :
    (o.map (fun p => if p.1 = k then (k, v) else p)).lookup k2 = o.lookup k2 := by
  induction o with
  | nil => simp
  | cons p ps ih =>
      simp only [List.map_cons]
      by_cases hp : p.1 = k
      · have hne2 : (k2 == k) = false := beq_eq_false_iff_ne.mpr h
        have hne : (k2 == p.1) = false := by rw [hp]; exact hne2
        rw [if_pos hp]
        simp only [List.lookup, hne2, hne]
        exact ih
      · rw [if_neg hp]
        by_cases hk2 : k2 = p.1
        · have hb : (k2 == p.1) = true := beq_iff_eq.mpr hk2
          simp only [List.lookup, hb]
        · have hne : (k2 == p.1) = false := beq_eq_false_iff_ne.mpr hk2
          simp only [List.lookup, hne]
          exact ih

theorem lookup_append_single_self (o : List (String × CtxVal)) (k : String) (v : CtxVal)
    (h : o.any (fun p => p.1 = k) = false) :
    (o ++ [(k, v)]).lookup k = some v := by
  induction o with
  | nil => simp [List.lookup]
  | cons p ps ih =>
      simp only [List.any_cons, Bool.or_eq_false_iff, decide_eq_false_iff_not] at h
      have hne : (k == p.1) = false :=
        beq_eq_false_iff_ne.mpr (fun hc => h.1 hc.symm)
      simp only [List.cons_append, List.lookup, hne]
      exact ih (by simp [h.2])

theorem lookup_append_single_other (o : List (String × CtxVal)) (k k2 : String) (v : CtxVal)
    (h : k2 ≠ k) :
    (o ++ [(k, v)]).lookup k2 = o.lookup k2 := by
  induction o with
  | nil =>
      have hne : (k2 == k) = false := beq_eq_false_iff_ne.mpr h
      simp [List.lookup, hne]
  | cons p ps ih =>
      by_cases hk2 : k2 = p.1
      · have hb : (k2 == p.1) = true := beq_iff_eq.mpr hk2
        simp only [List.cons_append, List.lookup, hb]
      · have hne : (k2 == p.1) = false := beq_eq_false_iff_ne.mpr hk2
        simp only [List.cons_append, List.lookup, hne]
        exact ih

theorem jsSetKey_lookup_self (o : List (String × CtxVal)) (k : String) (v : CtxVal) :
    (jsSetKey o (k, v)).lookup k = some v := by
  unfold jsSetKey
  by_cases h : o.any (fun p => p.1 = k) = true
  · simp only [h, if_true]
    exact lookup_map_replace_self o k v h
  · simp only [Bool.not_eq_true] at h
    simp only [h, Bool.false_eq_true, if_false]
    exact lookup_append_single_self o k v h

theorem jsSetKey_lookup_other (o : List (String × CtxVal)) (k k2 : String) (v : CtxVal)
    (h : k2 ≠ k) : (jsSetKey o (k, v)).lookup k2 = o.lookup k2 := by
  unfold jsSetKey
  by_cases hany : o.any (fun p => p.1 = k) = true
  · simp only [hany, if_true]
    exact lookup_map_replace_other o k k2 v h
  · simp only [Bool.not_eq_true] at hany
    simp only [hany, Bool.false_eq_true, if_false]
    exact lookup_append_single_other o k k2 v h

theorem objAssign_lookup_of_not_mem (target source : List (String × CtxVal)) (k : String)
    (h : ∀ kv ∈ source, kv.1 ≠ k) :
    (objAssign target source).lookup k = target.lookup k := by
  induction source generalizing target with
  | nil => rfl
  | cons kv rest ih =>
      have h1 : kv.1 ≠ k := h kv (by simp)
      have h2 : ∀ p ∈ rest, p.1 ≠ k := fun p hp => h p (by simp [hp])
      show (objAssign (jsSetKey target kv) rest).lookup k = _
      rw [ih (jsSetKey target kv) h2]
      exact jsSetKey_lookup_other target kv.1 k kv.2 (by exact fun hc => h1 hc.symm)

theorem objAssign_lookup_of_lookup (target source : List (String × CtxVal)) (k : String)
    (v : CtxVal) (hnd : (source.map Prod.fst).Nodup) (h : source.lookup k = some v) :
    (objAssign target source).lookup k = some v := by
  induction source generalizing target with
  | nil => simp [List.lookup] at h
  | cons kv rest ih =>
      simp only [List.map_cons, List.nodup_cons] at hnd
      by_cases hk : k = kv.1
      · have hv : v = kv.2 := by
          simp [List.lookup, hk] at h
          exact h.symm
        subst hv
        have hnot : ∀ p ∈ rest, p.1 ≠ k := by
          intro p hp hc
          have hmem := List.mem_map_of_mem Prod.fst hp
          rw [hc, hk] at hmem
          exact hnd.1 hmem
        show (objAssign (jsSetKey target kv) rest).lookup k = _
        rw [objAssign_lookup_of_not_mem (jsSetKey target kv) rest k hnot, hk]
        exact jsSetKey_lookup_self target kv.1 kv.2
      · have hne : (k == kv.1) = false := by simp [hk]
        simp only [List.lookup, hne] at h
        show (objAssign (jsSetKey target kv) rest).lookup k = _
        exact ih (jsSetKey target kv) hnd.2 h

theorem lookup_eq_none_forall {β : Type} (l : List (String × β)) (k : String)
    (h : l.lookup k = none) : ∀ p ∈ l, p.1 ≠ k := by
  induction l with
  | nil => simp
  | cons q qs ih =>
      intro p hp
      by_cases hq : (k == q.1) = true
      · simp [List.lookup, hq] at h
      · simp only [Bool.not_eq_true] at hq
        simp only [List.lookup, hq] at h
        rcases List.mem_cons.mp hp with hp | hp
        · subst hp
          intro hc
          rw [hc] at hq
          simp at hq
        · exact ih h p hp

theorem keys_map_handle (models : List (String × String)) :
    ((models.map (fun p => (p.1, CtxVal.handle p.2))).map Prod.fst) =
      models.map Prod.fst := by
  rw [List.map_map]
  rfl

theorem lookup_map_handle (models : List (String × String)) (k : String) :
    (models.map (fun p => (p.1, CtxVal.handle p.2))).lookup k =
      (models.lookup k).map CtxVal.handle := by
  induction models with
  | nil => rfl
  | cons p ps ih =>
      by_cases hk : (k == p.1) = true
      · simp [List.lookup, hk]
      · simp only [Bool.not_eq_true] at hk
        simp [List.lookup, hk, ih]

/-- Claim C4: in the context produced by `Object.assign({ authUser }, models)`,
every store-handle name maps to the handle supplied in `models` (the handles
are merged after the `authUser` field, so no field derived from possibly
forged claims can overwrite a store handle); the decoded claims appear only
under the `authUser` key, and every other key of the context is independent
of them. -/
theorem mkContext_models_precedence (a : Option AuthClaims)
    (models : List (String × String)) (hnd : (models.map Prod.fst).Nodup) :
    (∀ k h, models.lookup k = some h →
      (mkContext a models).lookup k = some (.handle h)) ∧
    (models.lookup "authUser" = none →
      (mkContext a models).lookup "authUser" = some (.auth a)) ∧
    (∀ k, k ≠ "authUser" → ∀ a2 : Option AuthClaims,
      (mkContext a models).lookup k = (mkContext a2 models).lookup k) := by
  have hkeys := keys_map_handle models
  have hlook := lookup_map_handle models
  refine ⟨?_, ?_, ?_⟩
  · intro k h hh
    unfold mkContext
    apply objAssign_lookup_of_lookup
    · rw [hkeys]
      exact hnd
    · rw [hlook k, hh]
      rfl
  · intro hnone
    unfold mkContext
    have hnot : ∀ kv ∈ models.map (fun p => (p.1, CtxVal.handle p.2)), kv.1 ≠ "authUser" :=
      lookup_eq_none_forall _ _ (by rw [hlook _, hnone]; rfl)
    rw [objAssign_lookup_of_not_mem _ _ _ hnot]
    simp [List.lookup]
  · intro k hk a2
    unfold mkContext
    by_cases hcase : ∃ h, models.lookup k = some h
    · rcases hcase with ⟨h, hh⟩
      rw [objAssign_lookup_of_lookup _ _ k (.handle h) (hkeys ▸ hnd) (by rw [hlook k, hh]; rfl),
        objAssign_lookup_of_lookup _ _ k (.handle h) (hkeys ▸ hnd) (by rw [hlook k, hh]; rfl)]
    · push_neg at hcase
      have hnone : models.lookup k = none :=
        Option.eq_none_iff_forall_not_mem.mpr (fun v hv => hcase v hv)
      have hnot : ∀ kv ∈ models.map (fun p => (p.1, CtxVal.handle p.2)), kv.1 ≠ k :=
        lookup_eq_none_forall _ _ (by rw [hlook k, hnone]; rfl)
      rw [objAssign_lookup_of_not_mem _ _ k hnot, objAssign_lookup_of_not_mem _ _ k hnot]
      have hne : (k == "authUser") = false := by simp [hk]
      simp [List.lookup, hne]

/-- Witness for `mkContext_models_precedence` at a concrete model map whose
keys include one clashing with a forged-claims scenario. -/
theorem mkContext_models_precedence_witness :
    (mkContext (some ⟨"forged", "f@x.co"⟩) [("User", "UserModel"), ("Message", "MessageModel")]).lookup
      "User" = some (.handle "UserModel") ∧
    (mkContext (some ⟨"forged", "f@x.co"⟩) [("User", "UserModel"), ("Message", "MessageModel")]).lookup
      "authUser" = some (.auth (some ⟨"forged", "f@x.co"⟩)) :=
  ⟨(mkContext_models_precedence (some ⟨"forged", "f@x.co"⟩)
      [("User", "UserModel"), ("Message", "MessageModel")] (by decide)).1 "User" "UserModel" rfl,
   (mkContext_models_precedence (some ⟨"forged", "f@x.co"⟩)
      [("User", "UserModel"), ("Message", "MessageModel")] (by decide)).2.1 rfl⟩

/-! ### C8 -/

theorem updateFirst_length (p : UserDoc → Bool) (f : UserDoc → UserDoc)
    (l : List UserDoc) : (updateFirst p f l).length = l.length := by
  induction l with
  | nil => rfl
  | cons u us ih =>
      unfold updateFirst
      by_cases hu : p u = true
      · rw [if_pos hu]
        simp
      · rw [if_neg hu]
        simp [ih]

theorem updateFirst_find? (pred : UserDoc → Bool) (f : UserDoc → UserDoc)
    (l : List UserDoc) (u : UserDoc) (hfind : l.find? pred = some u)
    (hpf : pred (f u) = pred u) :
    (updateFirst pred f l).find? pred = some (f u) := by
  induction l with
  | nil => simp at hfind
  | cons x xs ih =>
      by_cases hx : pred x = true
      · rw [List.find?_cons_of_pos _ hx] at hfind
        cases hfind
        unfold updateFirst
        rw [if_pos hx]
        exact List.find?_cons_of_pos _ (by rw [hpf]; exact hx)
      · rw [List.find?_cons_of_neg _ hx] at hfind
        unfold updateFirst
        rw [if_neg hx]
        rw [List.find?_cons_of_neg _ hx]
        exact ih hfind

theorem updateFirst_mem (pred : UserDoc → Bool) (f : UserDoc → UserDoc)
    (l : List UserDoc) (u : UserDoc) (hfind : l.find? pred = some u)
    (d : UserDoc) (hd : d ∈ updateFirst pred f l) : d = f u ∨ d ∈ l := by
  induction l with
  | nil => simp [updateFirst] at hd
  | cons x xs ih =>
      by_cases hx : pred x = true
      · rw [List.find?_cons_of_pos _ hx] at hfind
        cases hfind
        unfold updateFirst at hd
        rw [if_pos hx] at hd
        rcases List.mem_cons.mp hd with h | h
        · exact .inl h
        · exact .inr (List.mem_cons_of_mem _ h)
      · rw [List.find?_cons_of_neg _ hx] at hfind
        unfold updateFirst at hd
        rw [if_neg hx] at hd
        rcases List.mem_cons.mp hd with h | h
        · exact .inr (by simp [h])
        · rcases ih hfind h with h2 | h2
          · exact .inl h2
          · exact .inr (List.mem_cons_of_mem _ h2)

theorem populatePostsDesc_mem (posts : List PostDoc) (u : UserDoc) (p : PostDoc) :
    p ∈ populatePostsDesc posts u ↔ p ∈ posts ∧ p.id ∈ u.posts := by
  unfold populatePostsDesc
  rw [(List.perm_insertionSort createdDesc _).mem_iff, List.mem_filter]
  simp

theorem populatePostsDesc_sorted (posts : List PostDoc) (u : UserDoc) :
    List.Sorted createdDesc (populatePostsDesc posts u) :=
  List.sorted_insertionSort createdDesc _

theorem getAuthUser_eq_some (users : List UserDoc) (posts : List PostDoc)
    (a : AuthClaims) :
    Query.getAuthUser users posts (some a) =
      match users.find? (fun u => u.email = a.email) with
      | none => ⟨none, [], users⟩
      | some u =>
          ⟨some u, populatePostsDesc posts u,
            updateFirst (fun d => d.email = a.email)
              (fun d => { d with isOnline := true }) users⟩ := rfl

/-- Claim C8: `Query.getAuthUser` returns null with no store access when
`authUser` is absent; when `authUser` is present and a stored user has the
authenticated email, it returns that user, persists the online flag set to
true for that user (leaving every other document unchanged), and populates
the returned posts in creation-time-descending order. -/
theorem getAuthUser_spec (users : List UserDoc) (posts : List PostDoc) :
    (Query.getAuthUser users posts none = ⟨none, [], users⟩) ∧
    (∀ a : AuthClaims, ∀ u, users.find? (fun d => d.email = a.email) = some u →
      (Query.getAuthUser users posts (some a)).user = some u ∧
      ((Query.getAuthUser users posts (some a)).users.find?
        (fun d => d.email = a.email) = some { u with isOnline := true }) ∧
      (∀ d ∈ (Query.getAuthUser users posts (some a)).users,
        d = { u with isOnline := true } ∨ d ∈ users) ∧
      (Query.getAuthUser users posts (some a)).users.length = users.length ∧
      (∀ p, p ∈ (Query.getAuthUser users posts (some a)).posts ↔
        p ∈ posts ∧ p.id ∈ u.posts) ∧
      List.Sorted (fun p q => q.createdAt ≤ p.createdAt)
        (Query.getAuthUser users posts (some a)).posts) := by
  constructor
  · rfl
  · intro a u hfind
    rw [getAuthUser_eq_some users posts a, hfind]
    refine ⟨rfl, ?_, ?_, ?_, ?_, ?_⟩
    · exact updateFirst_find? _ _ users u hfind rfl
    · intro d hd
      exact updateFirst_mem _ _ users u hfind d hd
    · exact updateFirst_length _ _ users
    · intro p
      exact populatePostsDesc_mem posts u p
    · exact populatePostsDesc_sorted posts u

/-- Witness for `getAuthUser_spec` at a concrete store: the user is returned
and the persisted copy has the online flag set. -/
theorem getAuthUser_spec_witness :
    (Query.getAuthUser [mkUser "1" "n m" "j@x.co" "john" "pw"] []
      (some ⟨"1", "j@x.co"⟩)).user = some (mkUser "1" "n m" "j@x.co" "john" "pw") ∧
    (Query.getAuthUser [mkUser "1" "n m" "j@x.co" "john" "pw"] []
      (some ⟨"1", "j@x.co"⟩)).users.find? (fun d => d.email = "j@x.co") =
      some { mkUser "1" "n m" "j@x.co" "john" "pw" with isOnline := true } :=
  ⟨((getAuthUser_spec [mkUser "1" "n m" "j@x.co" "john" "pw"] []).2 ⟨"1", "j@x.co"⟩
      (mkUser "1" "n m" "j@x.co" "john" "pw") (by decide)).1,
   ((getAuthUser_spec [mkUser "1" "n m" "j@x.co" "john" "pw"] []).2 ⟨"1", "j@x.co"⟩
      (mkUser "1" "n m" "j@x.co" "john" "pw") (by decide)).2.1⟩

/-! ### C7 -/

theorem regexMatchAt_dotfree (pat : List Char) (hd : ∀ c ∈ pat, c ≠ '.') :
    ∀ cs, regexMatchAt pat cs =
      (pat.map Char.toLower).isPrefixOf (cs.map Char.toLower) := by
  induction pat with
  | nil =>
      intro cs
      cases cs <;> rfl
  | cons p ps ih =>
      intro cs
      cases cs with
      | nil => rfl
      | cons c cs2 =>
          have hp : p ≠ '.' := hd p (List.mem_cons_self p ps)
          have ihh := ih (fun d hc => hd d (List.mem_cons_of_mem p hc)) cs2
          show (regexCharMatch p c && regexMatchAt ps cs2) = _
          rw [ihh]
          show _ = ((p.toLower == c.toLower) &&
            (ps.map Char.toLower).isPrefixOf (cs2.map Char.toLower))
          have h1 : regexCharMatch p c = decide (p.toLower = c.toLower) := by
            unfold regexCharMatch
            rw [if_neg hp]
          have h2 : (p.toLower == c.toLower) = decide (p.toLower = c.toLower) := by
            cases hq : decide (p.toLower = c.toLower) with
            | true => simp [of_decide_eq_true hq]
            | false =>
                have := of_decide_eq_false hq
                simp [this]
          rw [h1, h2]

theorem regexSearch_dotfree (pat : List Char) (hd : ∀ c ∈ pat, c ≠ '.') :
    ∀ s : List Char, regexSearch pat s =
      ((s.map Char.toLower).tails).any (fun t => (pat.map Char.toLower).isPrefixOf t) := by
  intro s
  induction s with
  | nil =>
      show regexMatchAt pat [] = _
      rw [regexMatchAt_dotfree pat hd []]
      cases pat <;> rfl
  | cons c cs ih =>
      show (regexMatchAt pat (c :: cs) || regexSearch pat cs) = _
      rw [regexMatchAt_dotfree pat hd (c :: cs), ih]
      rfl

/-- For a pattern free of the `.` wildcard — in particular, for any pattern
free of all regex metacharacters — the fragment engine `regexTestCI`
coincides with case-insensitive substring containment. -/
theorem regexTestCI_eq_ciContains (pat s : String) (hd : ∀ c ∈ pat.toList, c ≠ '.') :
    regexTestCI pat s = ciContains s pat := by
  unfold regexTestCI ciContains
  exact regexSearch_dotfree pat.toList hd s.toList

/-- A pattern free of every regex metacharacter is in particular free of the
`.` wildcard and lies inside the fragment modelled by `regexTestCI`. -/
theorem metaFree_dotfree (q : String) (h : ∀ c ∈ q.toList, jsRegexMeta c = false) :
    (∀ c ∈ q.toList, c ≠ '.') ∧ modelledPattern q = true := by
  constructor
  · intro c hc he
    have := h c hc
    rw [he] at this
    simp [jsRegexMeta] at this
  · unfold modelledPattern
    rw [List.all_eq_true]
    intro c hc
    simp [h c hc]

/-- Claim C7 counterexample: the search query is compiled as a regular
expression, not matched as a literal substring.  The pattern `"."` lies
inside the fragment on which `regexTestCI` agrees with the JavaScript
engine (`modelledPattern "." = true`), and with `searchQuery = "."` an
authenticated caller receives a user whose username `"ab"` and full name
`"abcd"` do not contain `"."` — the claim says every returned user's
username or full name case-insensitively contains the query. -/
theorem searchUsers_contains_counterexample :
    modelledPattern "." = true ∧
    Query.searchUsers regexTestCI [mkUser "2" "abcd" "e@x.co" "ab" "pw"]
      (some ⟨"1", "me@x.co"⟩) "." =
      .ok [mkUser "2" "abcd" "e@x.co" "ab" "pw"] ∧
    ciContains (mkUser "2" "abcd" "e@x.co" "ab" "pw").username "." = false ∧
    ciContains (mkUser "2" "abcd" "e@x.co" "ab" "pw").fullName "." = false := by
  refine ⟨by decide, by decide, by decide, by decide⟩

/-- Claim C7 (amended): `Query.searchUsers` returns the empty sequence for an
empty query; for a non-empty query and an authenticated caller it returns at
most 50 stored users, each of whose username or full name the regex engine
matches against `searchQuery` compiled as `new RegExp(searchQuery, 'i')`
(the engine is an opaque runtime primitive, here a parameter `rtest`), and
it never includes the caller's own id; for queries free of all regex
metacharacters — where the engine coincides with the modelled fragment
semantics `regexTestCI` — the match condition coincides with
case-insensitive substring containment. -/
theorem searchUsers_spec (rtest : String → String → Bool) (store : List UserDoc)
    (a : AuthClaims) (q : String) :
    (Query.searchUsers rtest store (some a) "" = .ok []) ∧
    (q ≠ "" →
      ∃ l, Query.searchUsers rtest store (some a) q = .ok l ∧
        l.length ≤ 50 ∧
        (∀ u ∈ l, u ∈ store ∧ u.id ≠ a.id ∧
          (rtest q u.username = true ∨ rtest q u.fullName = true)) ∧
        ((∀ c ∈ q.toList, jsRegexMeta c = false) →
          ∀ l2, Query.searchUsers regexTestCI store (some a) q = .ok l2 →
            ∀ u ∈ l2, ciContains u.username q = true ∨ ciContains u.fullName q = true)) := by
  constructor
  · rfl
  · intro hq
    unfold Query.searchUsers
    simp only [hq, if_false]
    refine ⟨_, rfl, ?_, ?_, ?_⟩
    · exact List.length_take_le 50 _
    · intro u hu
      have hu2 := List.take_subset 50 _ hu
      rw [List.mem_filter] at hu2
      refine ⟨hu2.1, ?_, ?_⟩
      · have := hu2.2
        simp only [Bool.and_eq_true, decide_eq_true_eq] at this
        exact this.2
      · have := hu2.2
        simp only [Bool.and_eq_true, Bool.or_eq_true] at this
        exact this.1
    · intro hmeta l2 hl2
      have hdot := (metaFree_dotfree q hmeta).1
      simp only [Except.ok.injEq] at hl2
      subst hl2
      intro u hu
      have hu2 := List.take_subset 50 _ hu
      rw [List.mem_filter] at hu2
      have := hu2.2
      simp only [Bool.and_eq_true, Bool.or_eq_true] at this
      rcases this.1 with h | h
      · exact .inl (by rw [← regexTestCI_eq_ciContains q u.username hdot]; exact h)
      · exact .inr (by rw [← regexTestCI_eq_ciContains q u.fullName hdot]; exact h)

/-- Witness for `searchUsers_spec` with the engine instantiated at the
fragment semantics and a metacharacter-free query: empty query gives the
empty result, and the literal query `"john"` returns matching users only. -/
theorem searchUsers_spec_witness :
    Query.searchUsers regexTestCI [mkUser "2" "John Doe" "e@x.co" "john" "pw"]
      (some ⟨"1", "me@x.co"⟩) "" = .ok [] ∧
    (∃ l, Query.searchUsers regexTestCI [mkUser "2" "John Doe" "e@x.co" "john" "pw"]
        (some ⟨"1", "me@x.co"⟩) "john" = .ok l ∧
      l.length ≤ 50 ∧
      (∀ u ∈ l, u ∈ [mkUser "2" "John Doe" "e@x.co" "john" "pw"] ∧ u.id ≠ "1" ∧
        (regexTestCI "john" u.username = true ∨ regexTestCI "john" u.fullName = true)) ∧
      ((∀ c ∈ "john".toList, jsRegexMeta c = false) →
        ∀ l2, Query.searchUsers regexTestCI [mkUser "2" "John Doe" "e@x.co" "john" "pw"]
            (some ⟨"1", "me@x.co"⟩) "john" = .ok l2 →
          ∀ u ∈ l2, ciContains u.username "john" = true ∨
            ciContains u.fullName "john" = true)) :=
  ⟨(searchUsers_spec regexTestCI [mkUser "2" "John Doe" "e@x.co" "john" "pw"]
      ⟨"1", "me@x.co"⟩ "").1,
   (searchUsers_spec regexTestCI [mkUser "2" "John Doe" "e@x.co" "john" "pw"]
      ⟨"1", "me@x.co"⟩ "john").2 (by decide)⟩

/-! ### C2 -/

/-- The completeness rule of the sign-up cascade (spec §4.3.6 rule 2). -/
def fieldsPresent (inp : SignUpInput) : Prop :=
  inp.fullName ≠ "" ∧ inp.email ≠ "" ∧ inp.username ≠ "" ∧ inp.password ≠ ""

instance (inp : SignUpInput) : Decidable (fieldsPresent inp) := by
  unfold fieldsPresent
  infer_instance

/-- The full-name length rule (spec §4.3.6 rule 3). -/
def fullNameLenOk (inp : SignUpInput) : Prop :=
  4 ≤ inp.fullName.length ∧ inp.fullName.length ≤ 40

instance (inp : SignUpInput) : Decidable (fullNameLenOk inp) := by
  unfold fullNameLenOk
  infer_instance

/-- The username length bounds and reserved-word rule (spec §4.3.6 rule 5,
the `UsernameUnavailable` part). -/
def usernameAvailOk (inp : SignUpInput) : Prop :=
  inp.username.length ≤ 20 ∧ 3 ≤ inp.username.length ∧ inp.username ∉ frontEndPages

instance (inp : SignUpInput) : Decidable (usernameAvailOk inp) := by
  unfold usernameAvailOk
  infer_instance

/-- The specification-level error type of a sign-up result, when the result
is a failure. -/
def signupSpecError : Except SignupErr SignedToken → Option SpecSignupError
  | .error e => some e.spec
  | .ok _ => none

theorem contains_frontEndPages_iff (s : String) :
    frontEndPages.contains s = true ↔ s ∈ frontEndPages := by
  simp [List.contains]

set_option maxHeartbeats 2000000 in
/-- Claim C2: `Mutation.signup` evaluates the validation rules in the order
(1) email/username uniqueness (`AlreadyExists`, naming the field), (2) all
four fields non-empty (`MissingField`), (3) full-name length in [4, 40]
(`InvalidFullName`), (4) email format (`InvalidEmail`), (5) username pattern
(`InvalidUsername`), then the length bounds [3, 20] and the reserved-word
list (`UsernameUnavailable`), (6) password length at least 6
(`WeakPassword`); it fails with the typed error of the first violated rule
and performs no store write on any failure. -/
theorem signup_first_violated_rule (secret : String) (store : List UserDoc)
    (newId : String) (inp : SignUpInput) :
    (∀ u, findByEmailOrUsername store inp.email inp.username = some u →
      (Mutation.signup secret store newId inp).result =
        .error (.alreadyExists (if u.email = inp.email then "email" else "username")) ∧
      (Mutation.signup secret store newId inp).store = store) ∧
    ((∃ u ∈ store, u.email = inp.email ∨ u.username = inp.username) →
      ∃ f, signupSpecError (Mutation.signup secret store newId inp).result =
        some (.AlreadyExists f)) ∧
    ((∀ u ∈ store, u.email ≠ inp.email ∧ u.username ≠ inp.username) →
      (¬ fieldsPresent inp →
        signupSpecError (Mutation.signup secret store newId inp).result =
          some .MissingField) ∧
      (fieldsPresent inp → ¬ fullNameLenOk inp →
        signupSpecError (Mutation.signup secret store newId inp).result =
          some .InvalidFullName) ∧
      (fieldsPresent inp → fullNameLenOk inp →
        emailRegexTest (inp.email.toList.map Char.toLower) = false →
        signupSpecError (Mutation.signup secret store newId inp).result =
          some .InvalidEmail) ∧
      (fieldsPresent inp → fullNameLenOk inp →
        emailRegexTest (inp.email.toList.map Char.toLower) = true →
        usernameRegexTest inp.username = false →
        signupSpecError (Mutation.signup secret store newId inp).result =
          some .InvalidUsername) ∧
      (fieldsPresent inp → fullNameLenOk inp →
        emailRegexTest (inp.email.toList.map Char.toLower) = true →
        usernameRegexTest inp.username = true → ¬ usernameAvailOk inp →
        signupSpecError (Mutation.signup secret store newId inp).result =
          some .UsernameUnavailable) ∧
      (fieldsPresent inp → fullNameLenOk inp →
        emailRegexTest (inp.email.toList.map Char.toLower) = true →
        usernameRegexTest inp.username = true → usernameAvailOk inp →
        inp.password.length < 6 →
        signupSpecError (Mutation.signup secret store newId inp).result =
          some .WeakPassword)) ∧
    ((∃ e, (Mutation.signup secret store newId inp).result = .error e) →
      (Mutation.signup secret store newId inp).store = store ∧
      (Mutation.signup secret store newId inp).createArg = none) := by
  refine ⟨?_, ?_, ?_, ?_⟩
  · intro u hu
    unfold Mutation.signup
    rw [hu]
    exact ⟨rfl, rfl⟩
  · rintro ⟨u, hu, hor⟩
    have hsome : (store.find? (fun u => u.email = inp.email || u.username = inp.username)).isSome := by
      rw [List.find?_isSome]
      exact ⟨u, hu, by simp [hor]⟩
    rcases Option.isSome_iff_exists.mp hsome with ⟨v, hv⟩
    unfold Mutation.signup findByEmailOrUsername
    rw [hv]
    exact ⟨if v.email = inp.email then "email" else "username", rfl⟩
  · intro hno
    have hfind : findByEmailOrUsername store inp.email inp.username = none :=
      (findByEmailOrUsername_none_iff store inp.email inp.username).mpr hno
    refine ⟨?_, ?_, ?_, ?_, ?_, ?_⟩
    · intro hnf
      have hb : (inp.fullName = "" || inp.email = "" || inp.username = "" ||
          inp.password = "") = true := by
        by_contra hb
        rw [Bool.not_eq_true, Bool.or_eq_false_iff, Bool.or_eq_false_iff,
          Bool.or_eq_false_iff] at hb
        exact hnf ⟨by simpa using hb.1.1.1, by simpa using hb.1.1.2,
          by simpa using hb.1.2, by simpa using hb.2⟩
      unfold Mutation.signup
      rw [hfind]
      simp [hb, signupSpecError, SignupErr.spec]
    · intro hfp hnl
      have hb : (inp.fullName = "" || inp.email = "" || inp.username = "" ||
          inp.password = "") = false := by
        simp [hfp.1, hfp.2.1, hfp.2.2.1, hfp.2.2.2]
      unfold fullNameLenOk at hnl
      push_neg at hnl
      unfold Mutation.signup
      rw [hfind]
      by_cases hlt : inp.fullName.length < 4
      · have hgt : ¬ (inp.fullName.length > 40) := by omega
        simp [hb, hlt, hgt, signupSpecError, SignupErr.spec]
      · have hge : 4 ≤ inp.fullName.length := by omega
        have hgt : inp.fullName.length > 40 := by
          have := hnl hge
          omega
        simp [hb, hgt, signupSpecError, SignupErr.spec]
    · intro hfp hfn hem
      obtain ⟨hge, hle⟩ := hfn
      have hb : (inp.fullName = "" || inp.email = "" || inp.username = "" ||
          inp.password = "") = false := by
        simp [hfp.1, hfp.2.1, hfp.2.2.1, hfp.2.2.2]
      have h2 : ¬ (inp.fullName.length > 40) := by omega
      have h3 : ¬ (inp.fullName.length < 4) := by omega
      have hem2 : emailRegexTest (List.map Char.toLower inp.email.data) = false := hem
      unfold Mutation.signup
      rw [hfind]
      simp [hb, h2, h3, hem, hem2, signupSpecError, SignupErr.spec]
    · intro hfp hfn hem hup
      obtain ⟨hge, hle⟩ := hfn
      have hb : (inp.fullName = "" || inp.email = "" || inp.username = "" ||
          inp.password = "") = false := by
        simp [hfp.1, hfp.2.1, hfp.2.2.1, hfp.2.2.2]
      have h2 : ¬ (inp.fullName.length > 40) := by omega
      have h3 : ¬ (inp.fullName.length < 4) := by omega
      have hem2 : emailRegexTest (List.map Char.toLower inp.email.data) = true := hem
      unfold Mutation.signup
      rw [hfind]
      simp [hb, h2, h3, hem, hem2, hup, signupSpecError, SignupErr.spec]
    · intro hfp hfn hem hup hna
      obtain ⟨hge, hle⟩ := hfn
      have hb : (inp.fullName = "" || inp.email = "" || inp.username = "" ||
          inp.password = "") = false := by
        simp [hfp.1, hfp.2.1, hfp.2.2.1, hfp.2.2.2]
      have h2 : ¬ (inp.fullName.length > 40) := by omega
      have h3 : ¬ (inp.fullName.length < 4) := by omega
      have hem2 : emailRegexTest (List.map Char.toLower inp.email.data) = true := hem
      unfold usernameAvailOk at hna
      push_neg at hna
      unfold Mutation.signup
      rw [hfind]
      by_cases h6 : inp.username.length > 20
      · simp [hb, h2, h3, hem, hem2, hup, h6, signupSpecError, SignupErr.spec]
      · by_cases h7 : inp.username.length < 3
        · simp [hb, h2, h3, hem, hem2, hup, h6, h7, signupSpecError, SignupErr.spec]
        · have hle2 : inp.username.length ≤ 20 := by omega
          have hge2 : 3 ≤ inp.username.length := by omega
          have hmem : inp.username ∈ frontEndPages := hna hle2 hge2
          have h8 : frontEndPages.contains inp.username = true :=
            (contains_frontEndPages_iff inp.username).mpr hmem
          simp [hb, h2, h3, hem, hem2, hup, h6, h7, h8, hmem, signupSpecError,
            SignupErr.spec]
    · intro hfp hfn hem hup hav hpw
      obtain ⟨hge, hle⟩ := hfn
      obtain ⟨hule, huge, humem⟩ := hav
      have hb : (inp.fullName = "" || inp.email = "" || inp.username = "" ||
          inp.password = "") = false := by
        simp [hfp.1, hfp.2.1, hfp.2.2.1, hfp.2.2.2]
      have h2 : ¬ (inp.fullName.length > 40) := by omega
      have h3 : ¬ (inp.fullName.length < 4) := by omega
      have hem2 : emailRegexTest (List.map Char.toLower inp.email.data) = true := hem
      have h6 : ¬ (inp.username.length > 20) := by omega
      have h7 : ¬ (inp.username.length < 3) := by omega
      have h8 : frontEndPages.contains inp.username = false := by
        rw [← Bool.not_eq_true, contains_frontEndPages_iff]
        exact humem
      unfold Mutation.signup
      rw [hfind]
      simp [hb, h2, h3, hem, hem2, hup, h6, h7, h8, humem, hpw, signupSpecError,
        SignupErr.spec]
  · rintro ⟨e, he⟩
    unfold Mutation.signup at he ⊢
    generalize hf : findByEmailOrUsername store inp.email inp.username = fr at he ⊢
    cases fr
    · split_ifs at he ⊢ <;> first | exact ⟨rfl, rfl⟩ | simp at he
    · exact ⟨rfl, rfl⟩

/-- Witness for `signup_first_violated_rule` at concrete inputs: a missing
field yields `MissingField`, a short full name yields `InvalidFullName`,
and the reserved username `post` yields `UsernameUnavailable`. -/
theorem signup_first_violated_rule_witness :
    signupSpecError (Mutation.signup "sec" [] "u1"
      ⟨"", "a@b.co", "abc", "secret1"⟩).result = some .MissingField ∧
    signupSpecError (Mutation.signup "sec" [] "u1"
      ⟨"Al", "a@b.co", "abc", "secret1"⟩).result = some .InvalidFullName ∧
    signupSpecError (Mutation.signup "sec" [] "u1"
      ⟨"John Doe", "a@b.co", "post", "secret1"⟩).result = some .UsernameUnavailable :=
  ⟨((signup_first_violated_rule "sec" [] "u1"
      ⟨"", "a@b.co", "abc", "secret1"⟩).2.2.1 (by simp)).1 (by decide),
   ((signup_first_violated_rule "sec" [] "u1"
      ⟨"Al", "a@b.co", "abc", "secret1"⟩).2.2.1 (by simp)).2.1 (by decide) (by decide),
   ((signup_first_violated_rule "sec" [] "u1"
      ⟨"John Doe", "a@b.co", "post", "secret1"⟩).2.2.1 (by simp)).2.2.2.2.1
      (by decide) (by decide) (by decide) (by decide) (by decide)⟩

/-! ### C1 -/

theorem bcryptHash_ne (s : String) : bcryptHash s ≠ s := by
  intro hc
  have hlen := congrArg String.length hc
  rw [bcryptHash, String.length_append] at hlen
  have h7 : ("$2a$10$" : String).length = 7 := rfl
  rw [h7] at hlen
  omega

/-- Claim C1 counterexample: for a valid concrete sign-up input, the object
the resolver passes to the store's create operation
(`new User({ fullName, email, username, password })`) carries the plaintext
password `"secret1"`, which differs from its one-way hash — not "the
password only in hashed form" as the claim states; hashing happens only
inside the store's save step. -/
theorem signup_plaintext_createArg_counterexample :
    (Mutation.signup "sec" [] "u1"
      ⟨"John Doe", "john@example.com", "john.doe", "secret1"⟩).createArg =
      some (mkUser "u1" "John Doe" "john@example.com" "john.doe" "secret1") ∧
    (mkUser "u1" "John Doe" "john@example.com" "john.doe" "secret1").password =
      "secret1" ∧
    "secret1" ≠ bcryptHash "secret1" := by
  refine ⟨by decide, rfl, by decide⟩

set_option maxHeartbeats 2000000 in
/-- Claim C1 (amended): on a successful sign-up the resolver passes the
plaintext password to the store's create operation; the one-way hashing is
applied by the store's save step (the User model middleware, modelled from
the spec), so the persisted document stores `bcryptHash` of the password —
which is never equal to the plaintext — and only the hashed form reaches the
store contents. -/
theorem signup_password_hashed_on_save (secret : String) (store : List UserDoc)
    (newId : String) (inp : SignUpInput) (d : UserDoc)
    (h : (Mutation.signup secret store newId inp).createArg = some d) :
    d.password = inp.password ∧
    (Mutation.signup secret store newId inp).store = store ++ [userModelSave d] ∧
    (userModelSave d).password = bcryptHash inp.password ∧
    bcryptHash inp.password ≠ inp.password := by
  unfold Mutation.signup at h ⊢
  generalize hf : findByEmailOrUsername store inp.email inp.username = fr at h ⊢
  cases fr
  · split_ifs at h ⊢ <;>
      first
      | exact Option.noConfusion h
      | (rw [Option.some_inj] at h
         subst h
         exact ⟨rfl, rfl, rfl, bcryptHash_ne inp.password⟩)
  · exact Option.noConfusion h

/-- Witness for `signup_password_hashed_on_save` at a concrete valid input:
the create argument carries the plaintext and the persisted document the
hash. -/
theorem signup_password_hashed_on_save_witness :
    (mkUser "u1" "John Doe" "john@example.com" "john.doe" "secret1").password =
      "secret1" ∧
    (Mutation.signup "sec" [] "u1"
      ⟨"John Doe", "john@example.com", "john.doe", "secret1"⟩).store =
      [] ++ [userModelSave (mkUser "u1" "John Doe" "john@example.com" "john.doe" "secret1")] ∧
    (userModelSave (mkUser "u1" "John Doe" "john@example.com" "john.doe" "secret1")).password =
      bcryptHash "secret1" ∧
    bcryptHash "secret1" ≠ "secret1" :=
  signup_password_hashed_on_save "sec" [] "u1"
    ⟨"John Doe", "john@example.com", "john.doe", "secret1"⟩
    (mkUser "u1" "John Doe" "john@example.com" "john.doe" "secret1") (by decide)
